import Mathlib

/-
Verification development for the taxon recency/frequency/starred model of
`naturtag/controllers/taxon_selection_controller.py` (class
`TaxonSelectionController`).  The controller state is embedded shallowly:

* Python lists of taxon ids become `List Nat` (append at the end = `++ [x]`).
* Python dicts become insertion-ordered association lists `List (Nat × α)`
  with first-match lookup (`lookupD`), assignment (`setD`, which replaces the
  value in place when the key is present and appends otherwise, matching
  CPython dict semantics), `dict.pop` (`eraseD`, which signals a `KeyError`
  when the key is absent), `dict.setdefault` (`setdefaultD`) and
  `d[k] += 1` (`bumpD`).
* Each `TaxonListItem(...)` constructor call allocates a fresh widget,
  modelled by a serial number drawn from a `next_item` counter, so that two
  widgets built for the same taxon id stay distinguishable (Kivy
  `remove_widget` removes one specific widget object).
* A Kivy list widget's `children` is a `List (Item × TaxonId)` of
  (widget serial, taxon id) pairs; `add_widget(w, len(children))` inserts at
  the end of `children` and `remove_widget(w)` removes `w` if present.
  In a Kivy layout the children are laid out in reverse `children` order, so
  the displayed (top-first) order is the reverse of the `children` list.
-/

namespace TaxonModel

/-- TaxonId: opaque integer identifier for a taxon (`taxon_id: int`). -/
abbrev TaxonId := Nat

/-- Widget serial number standing for one `TaxonListItem` object identity. -/
abbrev Item := Nat

/-- First-match lookup in an insertion-ordered association list; embeds
Python `d[k]` / `d.get(k)` on a dict (keys are unique in any dict built
from the empty one, so first match is the dict entry). -/
def lookupD {α : Type} : List (Nat × α) → Nat → Option α
  | [], _ => none
  | (k, v) :: rest, k0 => if k = k0 then some v else lookupD rest k0

/-- Python dict assignment `d[k] = v`: replace the value in place when the
key is present (CPython keeps the original insertion position), append a new
entry otherwise. -/
def setD {α : Type} : List (Nat × α) → Nat → α → List (Nat × α)
  | [], k0, v0 => [(k0, v0)]
  | (k, v) :: rest, k0, v0 =>
    if k = k0 then (k0, v0) :: rest else (k, v) :: setD rest k0 v0

/-- Python `d.pop(k)` effect on the dict: drop the entry for `k`.  When `k`
is absent this returns the list unchanged; the caller (`remove_star`) is
responsible for signalling the `KeyError` in that case. -/
def eraseD {α : Type} : List (Nat × α) → Nat → List (Nat × α)
  | [], _ => []
  | (k, v) :: rest, k0 => if k = k0 then rest else (k, v) :: eraseD rest k0

/-- Python `d.setdefault(k, v)`: append `(k, v)` when `k` is absent. -/
def setdefaultD (d : List (Nat × Nat)) (k v : Nat) : List (Nat × Nat) :=
  if (lookupD d k).isSome then d else d ++ [(k, v)]

/-- Python `d[k] += 1` on a dict with `Nat` values (the key is present
whenever the controller executes this, right after `setdefault`). -/
def bumpD : List (Nat × Nat) → Nat → List (Nat × Nat)
  | [], _ => []
  | (k, v) :: rest, k0 =>
    if k = k0 then (k, v + 1) :: rest else (k, v) :: bumpD rest k0

/-- Modelled from the spec: Kivy `remove_widget(w)` on a list widget whose
`children` hold (serial, taxon id) pairs — the Kivy widget classes
(`naturtag.widgets`, Kivy itself) are not under `src/`.  Removes the child
with serial `it` if present, otherwise a no-op. -/
def removeWidget : List (Item × TaxonId) → Item → List (Item × TaxonId)
  | [], _ => []
  | (s, t) :: rest, it => if s = it then rest else (s, t) :: removeWidget rest it

/-- State of `TaxonSelectionController` relevant to the taxon model:
the three id collections, the two id-to-widget maps, the `children` lists of
the history and starred list widgets, and a fresh-widget counter. -/
structure State where
  taxon_history_ids : List TaxonId
  taxon_history_map : List (TaxonId × Item)
  history_children : List (Item × TaxonId)
  starred_taxa_ids : List TaxonId
  starred_taxa_map : List (TaxonId × Item)
  starred_children : List (Item × TaxonId)
  frequent_taxa_ids : List (TaxonId × Nat)
  next_item : Nat
deriving Repr, DecidableEq

/-- The empty controller state (all collections empty, as in `__init__`
before any stored taxa are loaded). -/
def emptyState : State :=
  { taxon_history_ids := []
    taxon_history_map := []
    history_children := []
    starred_taxa_ids := []
    starred_taxa_map := []
    starred_children := []
    frequent_taxa_ids := []
    next_item := 0 }

/-- Embeds `add_frequent_taxon(taxon_id)`:
`frequent_taxa_ids.setdefault(taxon_id, 0)` then
`frequent_taxa_ids[taxon_id] += 1` (the final `frequent_taxa_list.sort()`
only re-sorts the display widget and touches no model state). -/
def add_frequent_taxon (s : State) (taxon_id : TaxonId) : State :=
  let d := setdefaultD s.frequent_taxa_ids taxon_id 0
  { s with frequent_taxa_ids := bumpD d taxon_id }

/-- Embeds `update_history(taxon_id)`: append to `taxon_history_ids`; if the
id already has a widget in `taxon_history_map`, remove that widget and
re-add it at the end of the children list (move to top of the display),
otherwise build a fresh widget, record it in the map and add it at the end;
finally `add_frequent_taxon(taxon_id)`. -/
def update_history (s : State) (taxon_id : TaxonId) : State :=
  let s1 := { s with taxon_history_ids := s.taxon_history_ids ++ [taxon_id] }
  match lookupD s1.taxon_history_map taxon_id with
  | some item =>
    let s2 := { s1 with history_children := removeWidget s1.history_children item }
    let s3 := { s2 with history_children := s2.history_children ++ [(item, taxon_id)] }
    add_frequent_taxon s3 taxon_id
  | none =>
    let item := s1.next_item
    let s2 := { s1 with
                next_item := s1.next_item + 1
                taxon_history_map := setD s1.taxon_history_map taxon_id item }
    let s3 := { s2 with history_children := s2.history_children ++ [(item, taxon_id)] }
    add_frequent_taxon s3 taxon_id

/-- Embeds `add_star(taxon_id)`: always build a fresh `TaxonListItem`;
append the id to `starred_taxa_ids` only when absent; overwrite
`starred_taxa_map[taxon_id]` with the fresh widget; and unconditionally add
the fresh widget at the end of the starred children list (so a repeated star
does add a second widget for the same id).  The `StarButton` added inside
the item is a child of the item, not of the list, and is not modelled. -/
def add_star (s : State) (taxon_id : TaxonId) : State :=
  let item := s.next_item
  let s1 := { s with next_item := s.next_item + 1 }
  let s2 := if taxon_id ∈ s1.starred_taxa_ids then s1
            else { s1 with starred_taxa_ids := s1.starred_taxa_ids ++ [taxon_id] }
  let s3 := { s2 with starred_taxa_map := setD s2.starred_taxa_map taxon_id item }
  { s3 with starred_children := s3.starred_children ++ [(item, taxon_id)] }

/-- Embeds `remove_star(taxon_id)`, statement by statement with Python
exception semantics: `starred_taxa_map.pop(taxon_id)` raises `KeyError`
when the id is absent (before any mutation); then
`starred_taxa_ids.remove(taxon_id)` raises `ValueError` when the id is not
in the list (after the map entry was already popped); then the widget is
removed from the children list.  The `Bool` component is `true` exactly when
an exception was raised, and the `State` component is the state at the point
the call returned or raised. -/
def remove_star (s : State) (taxon_id : TaxonId) : Bool × State :=
  match lookupD s.starred_taxa_map taxon_id with
  | none => (true, s)
  | some item =>
    let s1 := { s with starred_taxa_map := eraseD s.starred_taxa_map taxon_id }
    if taxon_id ∈ s1.starred_taxa_ids then
      let s2 := { s1 with starred_taxa_ids := s1.starred_taxa_ids.erase taxon_id }
      (false, { s2 with starred_children := removeWidget s2.starred_children item })
    else (true, s1)

/-- Embeds `is_starred(taxon_id)`: `taxon_id in self.starred_taxa_map`. -/
def is_starred (s : State) (taxon_id : TaxonId) : Bool :=
  (lookupD s.starred_taxa_map taxon_id).isSome

/-- Embeds `get_frequent_taxon_idx`: the sort key for the frequent view,
`frequent_taxa_ids.get(id, 0) * -1`. -/
def get_frequent_taxon_idx (s : State) (taxon_id : TaxonId) : Int :=
  -(((lookupD s.frequent_taxa_ids taxon_id).getD 0 : Nat) : Int)

/-- The visit count of a taxon: `frequent_taxa_ids.get(id, 0)`.  This is the
non-negated count underlying `get_frequent_taxon_idx`; the spec calls it
`frequencyRank`. -/
def frequencyRank (s : State) (taxon_id : TaxonId) : Nat :=
  (lookupD s.frequent_taxa_ids taxon_id).getD 0

/-- Modelled from the spec: `orderedHistory()` — the history view in
most-recent-first display order.  The display order of a Kivy list widget
(not under `src/`) is the reverse of its `children` list, projected to
taxon ids. -/
def orderedHistory (s : State) : List TaxonId :=
  (s.history_children.reverse).map Prod.snd

/-- Modelled from the spec: `orderedStarred()` — the starred view in
most-recently-starred-first display order, i.e. the reverse of the starred
list widget's `children`, projected to taxon ids. -/
def orderedStarred (s : State) : List TaxonId :=
  (s.starred_children.reverse).map Prod.snd

/-- Stable insertion step for `sortByKey`: place `x` before the first
element whose key is not smaller (equal keys keep original order). -/
def insertSorted (key : TaxonId → Int) (x : TaxonId) : List TaxonId → List TaxonId
  | [] => [x]
  | y :: ys => if key x ≤ key y then x :: y :: ys else y :: insertSorted key x ys

/-- Stable sort (ascending by `key`), as Python's stable `sort()` used by
the sortable list widget. -/
def sortByKey (key : TaxonId → Int) : List TaxonId → List TaxonId
  | [] => []
  | x :: xs => insertSorted key x (sortByKey key xs)

/-- Modelled from the spec: `orderedFrequent()` — all ever-viewed ids sorted
by the sort key `get_frequent_taxon_idx` (negated visit count, so descending
by count) with a stable sort, ties therefore broken by first-seen
(dict insertion) order.  The frequent list widget and its `sort()` live in
`naturtag.widgets`, which is not under `src/`; only the sort key is. -/
def orderedFrequent (s : State) : List TaxonId :=
  sortByKey (get_frequent_taxon_idx s) (s.frequent_taxa_ids.map Prod.fst)

/-- One user-level operation on the controller. -/
inductive Op where
  | view : TaxonId → Op
  | starOp : TaxonId → Op
  | unstarOp : TaxonId → Op
deriving Repr, DecidableEq

/-- Apply one operation (for `unstar` the resulting state, whether or not an
exception was raised). -/
def step (s : State) : Op → State
  | Op.view t => update_history s t
  | Op.starOp t => add_star s t
  | Op.unstarOp t => (remove_star s t).2

/-- Run a sequence of operations from a given state. -/
def runFrom (s : State) (ops : List Op) : State := List.foldl step s ops

/-- Run a sequence of operations from the empty state. -/
def run (ops : List Op) : State := runFrom emptyState ops

/-- Run a sequence of `recordView` calls from the empty state. -/
def runViews (l : List TaxonId) : State := List.foldl update_history emptyState l

/-- Number of `recordView t` operations in a sequence. -/
def countViews (ops : List Op) (t : TaxonId) : Nat :=
  (ops.filter (fun o => o = Op.view t)).length

theorem lookupD_setD_self {α : Type} (d : List (Nat × α)) (k : Nat) (v : α) :
    lookupD (setD d k v) k = some v := by
  induction d with
  | nil => simp [setD, lookupD]
  | cons p rest ih =>
    obtain ⟨k1, v1⟩ := p
    by_cases h : k1 = k
    · simp [setD, lookupD, h]
    · simp [setD, lookupD, h, ih]

theorem lookupD_setD_ne {α : Type} (d : List (Nat × α)) (k k0 : Nat) (v : α)
    (h : k0 ≠ k) : lookupD (setD d k v) k0 = lookupD d k0 := by
  induction d with
  | nil => simp [setD, lookupD, Ne.symm h]
  | cons p rest ih =>
    obtain ⟨k1, v1⟩ := p
    by_cases h1 : k1 = k
    · subst h1
      simp [setD, lookupD, Ne.symm h]
    · by_cases h2 : k1 = k0 <;> simp [setD, lookupD, h1, h2, h, ih]

theorem map_fst_setD_of_mem {α : Type} (d : List (Nat × α)) (k : Nat) (v : α)
    (h : (lookupD d k).isSome) :
    (setD d k v).map Prod.fst = d.map Prod.fst := by
  induction d with
  | nil => simp [lookupD] at h
  | cons p rest ih =>
    obtain ⟨k1, v1⟩ := p
    by_cases h1 : k1 = k
    · simp [setD, h1]
    · simp [lookupD, h1] at h
      simp [setD, h1, ih h]

theorem map_fst_setD_of_not_mem {α : Type} (d : List (Nat × α)) (k : Nat) (v : α)
    (h : lookupD d k = none) :
    (setD d k v).map Prod.fst = d.map Prod.fst ++ [k] := by
  induction d with
  | nil => simp [setD]
  | cons p rest ih =>
    obtain ⟨k1, v1⟩ := p
    by_cases h1 : k1 = k
    · simp [lookupD, h1] at h
    · simp [lookupD, h1] at h
      simp [setD, h1, ih h]

theorem lookupD_bumpD_self (d : List (Nat × Nat)) (k : Nat) :
    lookupD (bumpD d k) k = (lookupD d k).map (· + 1) := by
  induction d with
  | nil => simp [bumpD, lookupD]
  | cons p rest ih =>
    obtain ⟨k1, v1⟩ := p
    by_cases h : k1 = k
    · simp [bumpD, lookupD, h]
    · simp [bumpD, lookupD, h, ih]

theorem lookupD_bumpD_ne (d : List (Nat × Nat)) (k k0 : Nat) (h : k0 ≠ k) :
    lookupD (bumpD d k) k0 = lookupD d k0 := by
  induction d with
  | nil => simp [bumpD, lookupD]
  | cons p rest ih =>
    obtain ⟨k1, v1⟩ := p
    by_cases h1 : k1 = k
    · subst h1
      simp [bumpD, lookupD, Ne.symm h]
    · by_cases h2 : k1 = k0 <;> simp [bumpD, lookupD, h1, h2, h, ih]

theorem lookupD_append {α : Type} (d1 d2 : List (Nat × α)) (k : Nat) :
    lookupD (d1 ++ d2) k = (lookupD d1 k).elim (lookupD d2 k) some := by
  induction d1 with
  | nil => simp [lookupD]
  | cons p rest ih =>
    obtain ⟨k1, v1⟩ := p
    by_cases h : k1 = k <;> simp [lookupD, h, ih]

theorem lookupD_setdefaultD_self (d : List (Nat × Nat)) (k v : Nat) :
    lookupD (setdefaultD d k v) k = some ((lookupD d k).getD v) := by
  unfold setdefaultD
  cases h : lookupD d k with
  | some w => simp [h]
  | none => simp [h, lookupD_append, lookupD]

theorem lookupD_setdefaultD_ne (d : List (Nat × Nat)) (k k0 v : Nat) (h : k0 ≠ k) :
    lookupD (setdefaultD d k v) k0 = lookupD d k0 := by
  unfold setdefaultD
  cases hl : lookupD d k with
  | some w => simp [hl]
  | none =>
    simp only [hl, Option.isSome_none, Bool.false_eq_true, if_false, lookupD_append]
    have hk : lookupD [(k, v)] k0 = none := by simp [lookupD, Ne.symm h]
    rw [hk]
    cases lookupD d k0 <;> rfl

theorem frequencyRank_add_frequent_taxon (s : State) (x t : TaxonId) :
    frequencyRank (add_frequent_taxon s x) t =
      frequencyRank s t + (if x = t then 1 else 0) := by
  unfold add_frequent_taxon frequencyRank
  by_cases h : x = t
  · subst h
    simp [lookupD_bumpD_self, lookupD_setdefaultD_self]
  · simp [lookupD_bumpD_ne _ _ _ (Ne.symm h),
      lookupD_setdefaultD_ne _ _ _ _ (Ne.symm h), h]

theorem frequencyRank_update_history (s : State) (x t : TaxonId) :
    frequencyRank (update_history s x) t =
      frequencyRank s t + (if x = t then 1 else 0) := by
  unfold update_history
  cases h : lookupD s.taxon_history_map x <;> simp only [h] <;>
    rw [frequencyRank_add_frequent_taxon] <;> simp [frequencyRank]

theorem frequent_taxa_ids_add_star (s : State) (x : TaxonId) :
    (add_star s x).frequent_taxa_ids = s.frequent_taxa_ids := by
  by_cases hx : x ∈ s.starred_taxa_ids <;> simp [add_star, hx]

theorem frequent_taxa_ids_remove_star (s : State) (x : TaxonId) :
    ((remove_star s x).2).frequent_taxa_ids = s.frequent_taxa_ids := by
  cases h : lookupD s.starred_taxa_map x with
  | none => simp [remove_star, h]
  | some item =>
    by_cases hx : x ∈ s.starred_taxa_ids <;> simp [remove_star, h, hx]

theorem frequencyRank_step (s : State) (op : Op) (t : TaxonId) :
    frequencyRank (step s op) t =
      frequencyRank s t + (if op = Op.view t then 1 else 0) := by
  cases op with
  | view x => simp [step, frequencyRank_update_history]
  | starOp x => simp [step, frequencyRank, frequent_taxa_ids_add_star]
  | unstarOp x => simp [step, frequencyRank, frequent_taxa_ids_remove_star]

theorem countViews_cons (op : Op) (ops : List Op) (t : TaxonId) :
    countViews (op :: ops) t = (if op = Op.view t then 1 else 0) + countViews ops t := by
  unfold countViews
  by_cases h : op = Op.view t <;> simp [h, List.filter_cons, Nat.add_comm]

theorem runFrom_cons (s : State) (op : Op) (ops : List Op) :
    runFrom s (op :: ops) = runFrom (step s op) ops := rfl

theorem frequencyRank_runFrom (ops : List Op) (s : State) (t : TaxonId) :
    frequencyRank (runFrom s ops) t = frequencyRank s t + countViews ops t := by
  induction ops generalizing s with
  | nil => simp [runFrom, countViews]
  | cons op rest ih =>
    rw [runFrom_cons, ih, frequencyRank_step, countViews_cons]
    omega

/-- C3: for every run of operations from the empty state and every taxon id,
`frequencyRank` (the `frequent_taxa_ids.get(id, 0)` count) equals the number
of `recordView` (`update_history`) calls made with that id, and in
particular is `0` when the id was never viewed. -/
theorem frequencyRank_counts_views (ops : List Op) (t : TaxonId) :
    frequencyRank (run ops) t = countViews ops t := by
  rw [run, frequencyRank_runFrom]
  simp [frequencyRank, emptyState, lookupD]

/-- C9: over any single operation (`recordView`, `star` or `unstar`) from
any state, the frequency count of every taxon id never decreases. -/
theorem frequencyRank_monotone (s : State) (op : Op) (t : TaxonId) :
    frequencyRank s t ≤ frequencyRank (step s op) t := by
  rw [frequencyRank_step]
  exact Nat.le_add_right _ _

theorem history_children_add_frequent (s : State) (x : TaxonId) :
    (add_frequent_taxon s x).history_children = s.history_children := rfl

theorem history_map_add_frequent (s : State) (x : TaxonId) :
    (add_frequent_taxon s x).taxon_history_map = s.taxon_history_map := rfl

theorem history_ids_update_history (s : State) (x : TaxonId) :
    (update_history s x).taxon_history_ids = s.taxon_history_ids ++ [x] := by
  unfold update_history
  cases h : lookupD s.taxon_history_map x <;> simp [h, add_frequent_taxon]

theorem removeWidget_length_of_mem (l : List (Item × TaxonId)) (it : Item)
    (h : it ∈ l.map Prod.fst) : (removeWidget l it).length + 1 = l.length := by
  induction l with
  | nil => simp at h
  | cons p rest ih =>
    obtain ⟨a, b⟩ := p
    by_cases ha : a = it
    · simp [removeWidget, ha]
    · have h2 : it ∈ rest.map Prod.fst := by
        simp only [List.map_cons, List.mem_cons] at h
        rcases h with h | h
        · exact absurd h.symm ha
        · exact h
      simp [removeWidget, ha, ih h2]

theorem update_history_self_lookup (s : State) (x : TaxonId) :
    ∃ i, lookupD (update_history s x).taxon_history_map x = some i ∧
      i ∈ (update_history s x).history_children.map Prod.fst := by
  unfold update_history
  cases h : lookupD s.taxon_history_map x with
  | some i =>
    refine ⟨i, ?_, ?_⟩ <;>
      simp [h, history_map_add_frequent, history_children_add_frequent]
  | none =>
    refine ⟨s.next_item, ?_, ?_⟩ <;>
      simp [h, history_map_add_frequent, history_children_add_frequent, lookupD_setD_self]

theorem history_children_length_update_of_mem (s : State) (x : TaxonId) (i : Item)
    (hl : lookupD s.taxon_history_map x = some i)
    (hm : i ∈ s.history_children.map Prod.fst) :
    (update_history s x).history_children.length = s.history_children.length := by
  unfold update_history
  simp only [hl, history_children_add_frequent]
  rw [List.length_append]
  simp [removeWidget_length_of_mem _ _ hm]

/-- C4: from any state, calling `recordView(X)` (`update_history`) twice in
direct succession: the second call grows the raw history list
`taxon_history_ids` by exactly one entry, the repeat is deduplicated in the
displayed history view (the second call leaves the view length unchanged),
and the frequency count of `X` grows by exactly two over the two calls. -/
theorem repeat_view_dedup (s : State) (x : TaxonId) :
    (update_history (update_history s x) x).taxon_history_ids.length =
        (update_history s x).taxon_history_ids.length + 1 ∧
      (update_history (update_history s x) x).history_children.length =
        (update_history s x).history_children.length ∧
      frequencyRank (update_history (update_history s x) x) x =
        frequencyRank s x + 2 := by
  obtain ⟨i, hl, hm⟩ := update_history_self_lookup s x
  refine ⟨?_, ?_, ?_⟩
  · rw [history_ids_update_history]
    simp
  · exact history_children_length_update_of_mem _ _ _ hl hm
  · rw [frequencyRank_update_history, frequencyRank_update_history, if_pos rfl]

/-- C1 counterexample: at the concrete input of the empty state and taxon id
`0` (never starred), `remove_star` does raise (the `KeyError` from
`starred_taxa_map.pop`), so it is not the case that the call returns without
raising with the state unchanged. -/
theorem unstar_missing_counterexample :
    ¬ ((remove_star emptyState 0).1 = false ∧ (remove_star emptyState 0).2 = emptyState) := by
  decide

/-- C1 amended: `unstar(Y)` (`remove_star`) on a taxon id that is not
starred raises a `KeyError` (a "not found" signal) from
`starred_taxa_map.pop` before any mutation, so the entire state (starred
ids, starred map, starred view, history, frequency counts) is left
unchanged — but the call does raise rather than return normally. -/
theorem unstar_missing_raises_state_unchanged (s : State) (y : TaxonId)
    (h : is_starred s y = false) : remove_star s y = (true, s) := by
  cases hl : lookupD s.starred_taxa_map y with
  | some v => simp [is_starred, hl] at h
  | none => simp [remove_star, hl]

theorem unstar_missing_witness :
    is_starred emptyState 7 = false ∧ remove_star emptyState 7 = (true, emptyState) :=
  ⟨by decide, unstar_missing_raises_state_unchanged emptyState 7 (by decide)⟩

theorem lookupD_isSome_iff_mem {α : Type} (d : List (Nat × α)) (k : Nat) :
    (lookupD d k).isSome = true ↔ k ∈ d.map Prod.fst := by
  induction d with
  | nil => simp [lookupD]
  | cons p rest ih =>
    obtain ⟨k1, v1⟩ := p
    by_cases h : k1 = k
    · simp [lookupD, h]
    · simp [lookupD, h, ih]
      exact fun hk => absurd hk.symm h

/-- C2 counterexample: at the concrete input of the empty state, starring
taxon id `1` twice grows the displayed starred list from one entry to two
(a second widget for the same id is added), so the starred collection is
not unchanged by the repeated `star`. -/
theorem star_repeat_counterexample :
    ¬ ((add_star (add_star emptyState 1) 1).starred_children.length =
        (add_star emptyState 1).starred_children.length) := by
  decide

/-- C2 amended: for a taxon id that is already starred (present in both
`starred_taxa_ids` and `starred_taxa_map`), a repeated `star` leaves the
starred id list unchanged, leaves the key set of the starred map unchanged,
and keeps `isStarred` true — but it is not a no-op on the displayed starred
list, which grows by one duplicate widget for that id. -/
theorem star_repeat_amended (s : State) (x : TaxonId)
    (hid : x ∈ s.starred_taxa_ids) (hst : is_starred s x = true) :
    (add_star s x).starred_taxa_ids = s.starred_taxa_ids ∧
      is_starred (add_star s x) x = true ∧
      (add_star s x).starred_taxa_map.map Prod.fst =
        s.starred_taxa_map.map Prod.fst ∧
      (add_star s x).starred_children.length = s.starred_children.length + 1 := by
  refine ⟨?_, ?_, ?_, ?_⟩
  · simp [add_star, hid]
  · simp [add_star, hid, is_starred, lookupD_setD_self]
  · simp only [add_star, hid, if_pos]
    exact map_fst_setD_of_mem _ _ _ (by simpa [is_starred] using hst)
  · simp [add_star, hid]

theorem star_repeat_witness :
    (1 ∈ (add_star emptyState 1).starred_taxa_ids ∧
        is_starred (add_star emptyState 1) 1 = true) ∧
      ((add_star (add_star emptyState 1) 1).starred_taxa_ids =
          (add_star emptyState 1).starred_taxa_ids ∧
        is_starred (add_star (add_star emptyState 1) 1) 1 = true ∧
        (add_star (add_star emptyState 1) 1).starred_taxa_map.map Prod.fst =
          (add_star emptyState 1).starred_taxa_map.map Prod.fst ∧
        (add_star (add_star emptyState 1) 1).starred_children.length =
          (add_star emptyState 1).starred_children.length + 1) :=
  ⟨⟨by decide, by decide⟩,
    star_repeat_amended (add_star emptyState 1) 1 (by decide) (by decide)⟩

theorem map_fst_eraseD {α : Type} (d : List (Nat × α)) (k : Nat) :
    (eraseD d k).map Prod.fst = (d.map Prod.fst).erase k := by
  induction d with
  | nil => simp [eraseD]
  | cons p rest ih =>
    obtain ⟨k1, v1⟩ := p
    by_cases h : k1 = k <;> simp [eraseD, h, ih, List.erase_cons]

theorem starred_map_update_history (s : State) (x : TaxonId) :
    (update_history s x).starred_taxa_map = s.starred_taxa_map := by
  unfold update_history
  cases h : lookupD s.taxon_history_map x <;> simp [h, add_frequent_taxon]

theorem starred_ids_update_history (s : State) (x : TaxonId) :
    (update_history s x).starred_taxa_ids = s.starred_taxa_ids := by
  unfold update_history
  cases h : lookupD s.taxon_history_map x <;> simp [h, add_frequent_taxon]

theorem starred_ids_add_star (s : State) (x : TaxonId) :
    (add_star s x).starred_taxa_ids =
      if x ∈ s.starred_taxa_ids then s.starred_taxa_ids
      else s.starred_taxa_ids ++ [x] := by
  by_cases hx : x ∈ s.starred_taxa_ids <;> simp [add_star, hx]

theorem starred_map_add_star (s : State) (x : TaxonId) :
    (add_star s x).starred_taxa_map = setD s.starred_taxa_map x s.next_item := by
  by_cases hx : x ∈ s.starred_taxa_ids <;> simp [add_star, hx]

theorem remove_star_fields_of_mem (s : State) (x : TaxonId) (v : Item)
    (hl : lookupD s.starred_taxa_map x = some v) (hx : x ∈ s.starred_taxa_ids) :
    (remove_star s x).2.starred_taxa_map = eraseD s.starred_taxa_map x ∧
      (remove_star s x).2.starred_taxa_ids = s.starred_taxa_ids.erase x := by
  simp [remove_star, hl, hx]

/-- Synchronization invariant between the starred lookup map and the
starred id list: they hold the same set of taxon ids and both are
duplicate-free. -/
def StarredSync (s : State) : Prop :=
  (∀ t, t ∈ s.starred_taxa_map.map Prod.fst ↔ t ∈ s.starred_taxa_ids) ∧
    s.starred_taxa_ids.Nodup ∧ (s.starred_taxa_map.map Prod.fst).Nodup

theorem starredSync_step (s : State) (op : Op) (h : StarredSync s) :
    StarredSync (step s op) := by
  obtain ⟨hiff, hnd, hknd⟩ := h
  cases op with
  | view x =>
    refine ⟨?_, ?_, ?_⟩ <;>
      simp [step, starred_map_update_history, starred_ids_update_history, hiff, hnd, hknd]
  | starOp x =>
    by_cases hx : x ∈ s.starred_taxa_ids
    · have hxk : x ∈ s.starred_taxa_map.map Prod.fst := (hiff x).mpr hx
      have hsome : (lookupD s.starred_taxa_map x).isSome = true :=
        (lookupD_isSome_iff_mem _ _).mpr hxk
      refine ⟨?_, ?_, ?_⟩
      · intro t
        rw [show step s (Op.starOp x) = add_star s x from rfl, starred_map_add_star,
          starred_ids_add_star, if_pos hx, map_fst_setD_of_mem _ _ _ hsome]
        exact hiff t
      · rw [show step s (Op.starOp x) = add_star s x from rfl, starred_ids_add_star, if_pos hx]
        exact hnd
      · rw [show step s (Op.starOp x) = add_star s x from rfl, starred_map_add_star,
          map_fst_setD_of_mem _ _ _ hsome]
        exact hknd
    · have hxk : x ∉ s.starred_taxa_map.map Prod.fst := fun hc => hx ((hiff x).mp hc)
      have hnone : lookupD s.starred_taxa_map x = none := by
        cases hl : lookupD s.starred_taxa_map x with
        | none => rfl
        | some v =>
          exact absurd ((lookupD_isSome_iff_mem _ _).mp (by simp [hl])) hxk
      refine ⟨?_, ?_, ?_⟩
      · intro t
        rw [show step s (Op.starOp x) = add_star s x from rfl, starred_map_add_star,
          starred_ids_add_star, if_neg hx, map_fst_setD_of_not_mem _ _ _ hnone]
        simp only [List.mem_append, List.mem_singleton, hiff t]
      · rw [show step s (Op.starOp x) = add_star s x from rfl, starred_ids_add_star, if_neg hx]
        simp [List.nodup_append, hnd, hx]
      · rw [show step s (Op.starOp x) = add_star s x from rfl, starred_map_add_star,
          map_fst_setD_of_not_mem _ _ _ hnone]
        simp [List.nodup_append, hknd, hxk]
  | unstarOp x =>
    cases hl : lookupD s.starred_taxa_map x with
    | none =>
      have hstate : step s (Op.unstarOp x) = s := by
        simp [step, remove_star, hl]
      rw [hstate]
      exact ⟨hiff, hnd, hknd⟩
    | some v =>
      have hxk : x ∈ s.starred_taxa_map.map Prod.fst :=
        (lookupD_isSome_iff_mem _ _).mp (by simp [hl])
      have hx : x ∈ s.starred_taxa_ids := (hiff x).mp hxk
      obtain ⟨hmap, hids⟩ := remove_star_fields_of_mem s x v hl hx
      refine ⟨?_, ?_, ?_⟩
      · intro t
        rw [show step s (Op.unstarOp x) = (remove_star s x).2 from rfl, hmap, hids,
          map_fst_eraseD, hnd.mem_erase_iff, hknd.mem_erase_iff]
        exact and_congr_right fun _ => hiff t
      · rw [show step s (Op.unstarOp x) = (remove_star s x).2 from rfl, hids]
        exact hnd.erase x
      · rw [show step s (Op.unstarOp x) = (remove_star s x).2 from rfl, hmap, map_fst_eraseD]
        exact hknd.erase x

theorem starredSync_runFrom (ops : List Op) (s : State) (h : StarredSync s) :
    StarredSync (runFrom s ops) := by
  induction ops generalizing s with
  | nil => exact h
  | cons op rest ih => exact ih _ (starredSync_step s op h)

theorem starredSync_run (ops : List Op) : StarredSync (run ops) := by
  refine starredSync_runFrom ops emptyState ⟨?_, ?_, ?_⟩ <;> simp [emptyState]

/-- C8 counterexample: at the concrete input of starring taxon id `1` twice
from the empty state, the displayed starred list holds two entries for the
same id, so the at-most-once invariant fails for the displayed list. -/
theorem starred_at_most_once_counterexample :
    ¬ (((run [Op.starOp 1, Op.starOp 1]).starred_children.map Prod.snd).Nodup) := by
  decide

/-- C8 amended: every operation from the empty state preserves the
invariant that each taxon id appears at most once in the starred id list
`starred_taxa_ids` — but not in the displayed starred list, which can
accumulate duplicate widgets when an already-starred id is starred again. -/
theorem starred_ids_at_most_once (ops : List Op) :
    (run ops).starred_taxa_ids.Nodup :=
  (starredSync_run ops).2.1

/-- C10: in every state reachable from the empty state, the key set of the
starred lookup map (`starred_taxa_map`, backing `is_starred`) coincides
with the element set of the starred id list (`starred_taxa_ids`), so
membership queries and the id list never disagree about what is starred. -/
theorem starred_map_ids_agree (ops : List Op) (t : TaxonId) :
    is_starred (run ops) t = true ↔ t ∈ (run ops).starred_taxa_ids := by
  rw [is_starred, lookupD_isSome_iff_mem]
  exact (starredSync_run ops).1 t

/-- C7: for any three distinct taxon ids, starring A, then B, then C and
then unstarring C from the empty state leaves the starred view showing
exactly B then A — most-recently-starred first, with C absent. -/
theorem orderedStarred_example (A B C : TaxonId)
    (hAB : A ≠ B) (hAC : A ≠ C) (hBC : B ≠ C) :
    orderedStarred
        ((remove_star (add_star (add_star (add_star emptyState A) B) C) C).2) =
      [B, A] := by
  simp [add_star, remove_star, emptyState, orderedStarred, lookupD, setD, eraseD,
    removeWidget, List.erase_cons, hAB, hAC, hBC, Ne.symm hAB, Ne.symm hAC, Ne.symm hBC]

theorem orderedStarred_example_witness :
    orderedStarred
        ((remove_star (add_star (add_star (add_star emptyState 1) 2) 3) 3).2) =
      [2, 1] :=
  orderedStarred_example 1 2 3 (by decide) (by decide) (by decide)

theorem frequent_update (s : State) (x : TaxonId) :
    (update_history s x).frequent_taxa_ids =
      bumpD (setdefaultD s.frequent_taxa_ids x 0) x := by
  unfold update_history
  cases h : lookupD s.taxon_history_map x <;> simp [h, add_frequent_taxon]

theorem freq_after_six (A B C : TaxonId) (hAB : A ≠ B) (hAC : A ≠ C) (hBC : B ≠ C) :
    (runViews [A, B, A, C, B, B]).frequent_taxa_ids = [(A, 2), (B, 3), (C, 1)] := by
  simp [runViews, frequent_update, setdefaultD, bumpD, lookupD,
    hAB, hAC, hBC, Ne.symm hAB, Ne.symm hAC, Ne.symm hBC]

theorem orderedFrequent_of_freq (s : State) (d : List (TaxonId × Nat))
    (h : s.frequent_taxa_ids = d) :
    orderedFrequent s =
      sortByKey (fun t => -(((lookupD d t).getD 0 : Nat) : Int)) (d.map Prod.fst) := by
  subst h
  rfl

/-- C6: for any three distinct taxon ids, after the six `recordView` calls
A, B, A, C, B, B from the empty state, the frequent view yields exactly
B, A, C — descending by visit count (B three views, A two, C one), with
the stable sort breaking ties by first-seen order. -/
theorem orderedFrequent_example (A B C : TaxonId)
    (hAB : A ≠ B) (hAC : A ≠ C) (hBC : B ≠ C) :
    orderedFrequent (runViews [A, B, A, C, B, B]) = [B, A, C] := by
  rw [orderedFrequent_of_freq _ _ (freq_after_six A B C hAB hAC hBC)]
  norm_num [sortByKey, insertSorted, lookupD, hAB, hAC, hBC,
    Ne.symm hAB, Ne.symm hAC, Ne.symm hBC]

theorem orderedFrequent_example_witness :
    orderedFrequent (runViews [1, 2, 1, 3, 2, 2]) = [2, 1, 3] :=
  orderedFrequent_example 1 2 3 (by decide) (by decide) (by decide)

theorem removeWidget_sublist (l : List (Item × TaxonId)) (it : Item) :
    (removeWidget l it).Sublist l := by
  induction l with
  | nil => simp [removeWidget]
  | cons p rest ih =>
    obtain ⟨a, b⟩ := p
    by_cases ha : a = it
    · simp only [removeWidget, if_pos ha]
      exact List.sublist_cons_self _ _
    · simp only [removeWidget, if_neg ha]
      exact ih.cons₂ _

theorem not_mem_removeWidget_self (l : List (Item × TaxonId)) (i : Item) (x : TaxonId)
    (hnd : (l.map Prod.fst).Nodup) : (i, x) ∉ removeWidget l i := by
  induction l with
  | nil => simp [removeWidget]
  | cons p rest ih =>
    obtain ⟨a, b⟩ := p
    simp only [List.map_cons] at hnd
    by_cases ha : a = i
    · subst ha
      simp only [removeWidget, if_pos rfl]
      intro hmem
      have hma : a ∈ rest.map Prod.fst := List.mem_map.mpr ⟨(a, x), hmem, rfl⟩
      exact (List.nodup_cons.mp hnd).1 hma
    · simp only [removeWidget, if_neg ha]
      intro hmem
      rcases List.mem_cons.mp hmem with hh | hh
      · exact ha (congrArg Prod.fst hh).symm
      · exact ih (List.nodup_cons.mp hnd).2 hh

theorem mem_removeWidget_of_fst_ne (l : List (Item × TaxonId)) (it : Item)
    (q : Item × TaxonId) (hq : q ∈ l) (hne : q.1 ≠ it) : q ∈ removeWidget l it := by
  induction l with
  | nil => simp at hq
  | cons p rest ih =>
    obtain ⟨a, b⟩ := p
    by_cases ha : a = it
    · subst ha
      simp only [removeWidget, if_pos rfl]
      rcases List.mem_cons.mp hq with hh | hh
      · exact absurd (congrArg Prod.fst hh) hne
      · exact hh
    · simp only [removeWidget, if_neg ha]
      rcases List.mem_cons.mp hq with hh | hh
      · exact List.mem_cons.mpr (Or.inl hh)
      · exact List.mem_cons.mpr (Or.inr (ih hh))

theorem update_history_fields_some (s : State) (x : TaxonId) (i : Item)
    (h : lookupD s.taxon_history_map x = some i) :
    (update_history s x).history_children =
        removeWidget s.history_children i ++ [(i, x)] ∧
      (update_history s x).taxon_history_map = s.taxon_history_map ∧
      (update_history s x).next_item = s.next_item := by
  unfold update_history
  simp [h, add_frequent_taxon]

theorem update_history_fields_none (s : State) (x : TaxonId)
    (h : lookupD s.taxon_history_map x = none) :
    (update_history s x).history_children =
        s.history_children ++ [(s.next_item, x)] ∧
      (update_history s x).taxon_history_map =
        setD s.taxon_history_map x s.next_item ∧
      (update_history s x).next_item = s.next_item + 1 := by
  unfold update_history
  simp [h, add_frequent_taxon]

/-- Invariant of the history view: the displayed taxon ids are
duplicate-free, widget serials are duplicate-free, every displayed widget
is the one recorded for its taxon id in `taxon_history_map`, every mapped
taxon id is displayed, and all displayed serials are below the fresh
counter. -/
def HistInv (s : State) : Prop :=
  (s.history_children.map Prod.snd).Nodup ∧
    (s.history_children.map Prod.fst).Nodup ∧
    (∀ p ∈ s.history_children, lookupD s.taxon_history_map p.2 = some p.1) ∧
    (∀ t, (lookupD s.taxon_history_map t).isSome = true →
      t ∈ s.history_children.map Prod.snd) ∧
    ∀ p ∈ s.history_children, p.1 < s.next_item

theorem histInv_update (s : State) (x : TaxonId) (h : HistInv s) :
    HistInv (update_history s x) := by
  obtain ⟨hsnd, hfst, hpair, hcov, hfresh⟩ := h
  cases hl : lookupD s.taxon_history_map x with
  | none =>
    obtain ⟨hch, hmap, hnext⟩ := update_history_fields_none s x hl
    have hxnot : x ∉ s.history_children.map Prod.snd := by
      intro hc
      obtain ⟨q, hq, hq2⟩ := List.mem_map.mp hc
      have hqp := hpair q hq
      rw [hq2, hl] at hqp
      exact Option.noConfusion hqp
    have hnnot : s.next_item ∉ s.history_children.map Prod.fst := by
      intro hc
      obtain ⟨q, hq, hq1⟩ := List.mem_map.mp hc
      exact absurd hq1 (Nat.ne_of_lt (hfresh q hq))
    refine ⟨?_, ?_, ?_, ?_, ?_⟩
    · rw [hch]
      simp only [List.map_append, List.map_cons, List.map_nil]
      simp [List.nodup_append, hsnd, hxnot]
    · rw [hch]
      simp only [List.map_append, List.map_cons, List.map_nil]
      simp [List.nodup_append, hfst, hnnot]
    · intro p hp
      rw [hch] at hp
      rw [hmap]
      rcases List.mem_append.mp hp with hp | hp
      · have hpx : p.2 ≠ x := fun hc =>
          hxnot (hc ▸ List.mem_map_of_mem Prod.snd hp)
        rw [lookupD_setD_ne _ _ _ _ hpx]
        exact hpair p hp
      · have hpv : p = (s.next_item, x) := by simpa using hp
        rw [hpv]
        simp [lookupD_setD_self]
    · intro t ht
      rw [hmap] at ht
      rw [hch]
      by_cases htx : t = x
      · subst htx
        simp
      · rw [lookupD_setD_ne _ _ _ _ htx] at ht
        have hin := hcov t ht
        simp only [List.map_append, List.map_cons, List.map_nil, List.mem_append]
        exact Or.inl hin
    · intro p hp
      rw [hch] at hp
      rw [hnext]
      rcases List.mem_append.mp hp with hp | hp
      · exact Nat.lt_succ_of_lt (hfresh p hp)
      · have hpv : p = (s.next_item, x) := by simpa using hp
        rw [hpv]
        exact Nat.lt_succ_self _
  | some i =>
    obtain ⟨hch, hmap, hnext⟩ := update_history_fields_some s x i hl
    have hxmem : (i, x) ∈ s.history_children := by
      have hx : x ∈ s.history_children.map Prod.snd := hcov x (by simp [hl])
      obtain ⟨q, hq, hq2⟩ := List.mem_map.mp hx
      obtain ⟨q1, q2⟩ := q
      have hqp := hpair _ hq
      simp only at hqp hq2
      subst hq2
      rw [hl] at hqp
      have hq1 : i = q1 := by
        injection hqp
      subst hq1
      exact hq
    have hsub := removeWidget_sublist s.history_children i
    have hxnotrw : x ∉ (removeWidget s.history_children i).map Prod.snd := by
      intro hc
      obtain ⟨q, hq, hq2⟩ := List.mem_map.mp hc
      have hql : q ∈ s.history_children := hsub.subset hq
      have hqe : q = (i, x) :=
        List.inj_on_of_nodup_map hsnd hql hxmem (by simpa using hq2)
      rw [hqe] at hq
      exact not_mem_removeWidget_self _ _ _ hfst hq
    have hinotrw : i ∉ (removeWidget s.history_children i).map Prod.fst := by
      intro hc
      obtain ⟨q, hq, hq1⟩ := List.mem_map.mp hc
      have hql : q ∈ s.history_children := hsub.subset hq
      have hqe : q = (i, x) :=
        List.inj_on_of_nodup_map hfst hql hxmem (by simpa using hq1)
      rw [hqe] at hq
      exact not_mem_removeWidget_self _ _ _ hfst hq
    refine ⟨?_, ?_, ?_, ?_, ?_⟩
    · rw [hch]
      simp only [List.map_append, List.map_cons, List.map_nil]
      have hnd2 : ((removeWidget s.history_children i).map Prod.snd).Nodup :=
        hsnd.sublist (hsub.map Prod.snd)
      simp [List.nodup_append, hnd2, hxnotrw]
    · rw [hch]
      simp only [List.map_append, List.map_cons, List.map_nil]
      have hnd2 : ((removeWidget s.history_children i).map Prod.fst).Nodup :=
        hfst.sublist (hsub.map Prod.fst)
      simp [List.nodup_append, hnd2, hinotrw]
    · intro p hp
      rw [hch] at hp
      rw [hmap]
      rcases List.mem_append.mp hp with hp | hp
      · exact hpair p (hsub.subset hp)
      · have hpv : p = (i, x) := by simpa using hp
        rw [hpv]
        exact hl
    · intro t ht
      rw [hmap] at ht
      rw [hch]
      simp only [List.map_append, List.map_cons, List.map_nil, List.mem_append,
        List.mem_singleton]
      by_cases htx : t = x
      · exact Or.inr htx
      · left
        have hin := hcov t ht
        obtain ⟨q, hq, hq2⟩ := List.mem_map.mp hin
        have hqi : q.1 ≠ i := by
          intro hc
          have hqe : q = (i, x) :=
            List.inj_on_of_nodup_map hfst hq hxmem (by simpa using hc)
          exact htx (by rw [← hq2, hqe])
        exact List.mem_map.mpr ⟨q, mem_removeWidget_of_fst_ne _ _ _ hq hqi, hq2⟩
    · intro p hp
      rw [hch] at hp
      rw [hnext]
      rcases List.mem_append.mp hp with hp | hp
      · exact hfresh p (hsub.subset hp)
      · have hpv : p = (i, x) := by simpa using hp
        rw [hpv]
        exact hfresh _ hxmem

theorem histInv_foldl (l : List TaxonId) (s : State) (h : HistInv s) :
    HistInv (List.foldl update_history s l) := by
  induction l generalizing s with
  | nil => exact h
  | cons x rest ih => exact ih _ (histInv_update s x h)

theorem histInv_runViews (l : List TaxonId) : HistInv (runViews l) :=
  histInv_foldl l emptyState
    (by refine ⟨?_, ?_, ?_, ?_, ?_⟩ <;> simp [emptyState, lookupD])

theorem update_history_children_concat (s : State) (x : TaxonId) :
    ∃ i l0, (update_history s x).history_children = l0 ++ [(i, x)] := by
  cases hl : lookupD s.taxon_history_map x with
  | some i => exact ⟨i, _, (update_history_fields_some s x i hl).1⟩
  | none => exact ⟨s.next_item, _, (update_history_fields_none s x hl).1⟩

theorem history_map_lookup_update (s : State) (x t : TaxonId)
    (h : t = x ∨ (lookupD s.taxon_history_map t).isSome = true) :
    (lookupD (update_history s x).taxon_history_map t).isSome = true := by
  cases hl : lookupD s.taxon_history_map x with
  | some i =>
    rw [(update_history_fields_some s x i hl).2.1]
    rcases h with h | h
    · subst h
      simp [hl]
    · exact h
  | none =>
    rw [(update_history_fields_none s x hl).2.1]
    by_cases htx : t = x
    · subst htx
      simp [lookupD_setD_self]
    · rw [lookupD_setD_ne _ _ _ _ htx]
      rcases h with h | h
      · exact absurd h htx
      · exact h

theorem history_map_lookup_foldl (l : List TaxonId) (s : State) (t : TaxonId)
    (h : t ∈ l ∨ (lookupD s.taxon_history_map t).isSome = true) :
    (lookupD (List.foldl update_history s l).taxon_history_map t).isSome = true := by
  induction l generalizing s with
  | nil =>
    rcases h with h | h
    · simp at h
    · exact h
  | cons x rest ih =>
    apply ih
    rcases h with h | h
    · rcases List.mem_cons.mp h with h | h
      · right
        exact history_map_lookup_update s x t (Or.inl h)
      · left
        exact h
    · right
      exact history_map_lookup_update s x t (Or.inr h)

/-- C5: for every finite sequence of `recordView` calls from the empty
state, the displayed history contains every viewed taxon id, contains no
taxon id twice, and after one further `recordView x` its first (topmost)
entry is `x` — most recently viewed first. -/
theorem history_nodup_most_recent_first (l : List TaxonId) :
    (orderedHistory (runViews l)).Nodup ∧
      (∀ t ∈ l, t ∈ orderedHistory (runViews l)) ∧
      ∀ x, (orderedHistory (runViews (l ++ [x]))).head? = some x := by
  refine ⟨?_, ?_, ?_⟩
  · have h := (histInv_runViews l).1
    simpa [orderedHistory, List.map_reverse] using h
  · intro t ht
    have hk := history_map_lookup_foldl l emptyState t (Or.inl ht)
    have hin := (histInv_runViews l).2.2.2.1 t hk
    simpa [orderedHistory, List.map_reverse] using hin
  · intro x
    have hrun : runViews (l ++ [x]) = update_history (runViews l) x := by
      simp [runViews, List.foldl_append]
    obtain ⟨i, l0, hch⟩ := update_history_children_concat (runViews l) x
    rw [hrun, orderedHistory, hch]
    simp

end TaxonModel
